import Mathlib

/-!
Verification of the Crazy Eights game engine
(sources: `src/utils/deck.ts`, `src/App.tsx`).

The TypeScript source is shallowly embedded below.  Card identities
(random string tokens in the source) are modelled as naturals; the
`Math.random()` calls of the Fisher–Yates shuffle are modelled by an
explicit tape `rand : Nat → Nat`, where step `i` of the loop picks index
`rand i % (i + 1)` (the source picks `Math.floor(Math.random() * (i + 1))`,
a value in `[0, i]`).  The presentational `lastAction` string field is
omitted from the state; every other field of the React `GameState` is kept.
-/

namespace Q8

inductive Suit : Type where
  | hearts
  | diamonds
  | clubs
  | spades
deriving DecidableEq, Fintype

inductive Rank : Type where
  | rA
  | r2
  | r3
  | r4
  | r5
  | r6
  | r7
  | r8
  | r9
  | r10
  | rJ
  | rQ
  | rK
deriving DecidableEq

/-- `Card` from `src/types` as used by `deck.ts`: `{ id, suit, rank }`. -/
structure Card where
  id : Nat
  suit : Suit
  rank : Rank
deriving DecidableEq

inductive Player : Type where
  | player
  | ai
deriving DecidableEq

/-- The `GameStatus` values reachable by the engine.  The source also has
`menu` and `waiting` statuses used only by the menu screens. -/
inductive Status : Type where
  | menu
  | waiting
  | playing
  | suit_selection
  | game_over
deriving DecidableEq

/-- `GameState` from `src/App.tsx` (without the presentational
`lastAction` string). -/
structure GameState where
  deck : List Card
  playerHand : List Card
  aiHand : List Card
  discardPile : List Card
  currentSuit : Option Suit
  turn : Player
  status : Status
  winner : Option Player
deriving DecidableEq

/-- `canPlay` from `src/utils/deck.ts`.  The TypeScript parameter `card`
is typed `Card` but defensively checked for null/undefined (`if (!card)
return false`), hence the `Option Card` first argument here. -/
def canPlay (card : Option Card) (topCard : Option Card) (currentSuit : Option Suit) : Bool :=
  match card with
  | none => false
  | some c =>
    if c.rank = Rank.r8 then true
    else
      match topCard with
      | none => true
      | some t =>
        let targetSuit := currentSuit.getD t.suit
        decide (c.suit = targetSuit) || decide (c.rank = t.rank)

/-- Suit enumeration order of `deck.ts` (`SUITS`), which is also the key
order of the `suitCounts` record literal in the AI effect. -/
def SUITS : List Suit := [Suit.hearts, Suit.diamonds, Suit.clubs, Suit.spades]

/-- Rank enumeration order of `deck.ts` (`RANKS`). -/
def RANKS : List Rank :=
  [Rank.rA, Rank.r2, Rank.r3, Rank.r4, Rank.r5, Rank.r6, Rank.r7, Rank.r8,
   Rank.r9, Rank.r10, Rank.rJ, Rank.rQ, Rank.rK]

/-- The 52-card deck built by the nested loops of `createDeck` before the
shuffle: suit-major, rank-minor, each card with a unique identity token. -/
def baseDeck : List Card :=
  (List.range 52).map fun n =>
    { id := n, suit := (SUITS.drop (n / 13)).headD Suit.hearts,
      rank := (RANKS.drop (n % 13)).headD Rank.rA }

/-- One step of the Fisher–Yates loop of `shuffle`:
`[newDeck[i], newDeck[j]] = [newDeck[j], newDeck[i]]`. -/
def swapAt (l : List Card) (i j : Nat) : List Card :=
  match l[i]?, l[j]? with
  | some a, some b => (l.set i b).set j a
  | _, _ => l

/-- The Fisher–Yates loop of `shuffle`, counting `i` from `deck.length - 1`
down to `1`, swapping index `i` with `rand i % (i + 1)`. -/
def fyLoop (rand : Nat → Nat) : Nat → List Card → List Card
  | 0, l => l
  | i + 1, l => fyLoop rand i (swapAt l (i + 1) (rand (i + 1) % (i + 2)))

/-- `shuffle` from `src/utils/deck.ts` (the random draws given by `rand`). -/
def shuffle (rand : Nat → Nat) (deck : List Card) : List Card :=
  fyLoop rand (deck.length - 1) deck

/-- `createDeck` from `src/utils/deck.ts`: the full suit×rank product,
shuffled. -/
def createDeck (rand : Nat → Nat) : List Card :=
  shuffle rand baseDeck

theorem perm_cons_set (t : List Card) (j : Nat) (hj : j < t.length) (a : Card) :
    List.Perm (t.get ⟨j, hj⟩ :: t.set j a) (a :: t) := by
  induction t generalizing j with
  | nil => simp at hj
  | cons b s ih =>
    cases j with
    | zero =>
      simpa using List.Perm.swap a b s
    | succ k =>
      have hk : k < s.length := by simpa using hj
      have step : List.Perm (s.get ⟨k, hk⟩ :: b :: s.set k a) (b :: s.get ⟨k, hk⟩ :: s.set k a) :=
        List.Perm.swap b (s.get ⟨k, hk⟩) (s.set k a)
      have mid : List.Perm (b :: s.get ⟨k, hk⟩ :: s.set k a) (b :: a :: s) :=
        List.Perm.cons b (ih k hk)
      have fin : List.Perm (b :: a :: s) (a :: b :: s) := List.Perm.swap a b s
      simpa using (step.trans mid).trans fin

theorem swapAt_perm (l : List Card) (i j : Nat) : List.Perm (swapAt l i j) l := by
  unfold swapAt
  cases hi : l[i]? with
  | none => exact List.Perm.refl l
  | some a =>
    cases hj : l[j]? with
    | none => exact List.Perm.refl l
    | some b =>
      simp only
      have hi' : i < l.length := by
        by_contra h
        simp [List.getElem?_eq_none (Nat.le_of_not_lt h)] at hi
      have hj' : j < l.length := by
        by_contra h
        simp [List.getElem?_eq_none (Nat.le_of_not_lt h)] at hj
      have ha : a = l.get ⟨i, hi'⟩ := by
        have := (List.getElem?_eq_some_iff).1 hi
        obtain ⟨h1, h2⟩ := this
        simp [List.get_eq_getElem, h2]
      have hb : b = l.get ⟨j, hj'⟩ := by
        have := (List.getElem?_eq_some_iff).1 hj
        obtain ⟨h1, h2⟩ := this
        simp [List.get_eq_getElem, h2]
      subst ha hb
      -- the double set as explicit swap; induction on the list
      clear hi hj
      induction l generalizing i j with
      | nil => simp at hi'
      | cons hd t ih =>
        cases i with
        | zero =>
          cases j with
          | zero => simp
          | succ k =>
            have hk : k < t.length := by simpa using hj'
            simpa using perm_cons_set t k hk hd
        | succ m =>
          cases j with
          | zero =>
            have hm : m < t.length := by simpa using hi'
            simpa using perm_cons_set t m hm hd
          | succ k =>
            have hm : m < t.length := by simpa using hi'
            have hk : k < t.length := by simpa using hj'
            simpa using List.Perm.cons hd (ih m k hm hk)

theorem fyLoop_perm (rand : Nat → Nat) (n : Nat) (l : List Card) :
    List.Perm (fyLoop rand n l) l := by
  induction n generalizing l with
  | zero => exact List.Perm.refl l
  | succ i ih =>
    exact (ih _).trans (swapAt_perm l (i + 1) (rand (i + 1) % (i + 2)))

/-- `shuffle` returns a permutation of its input. -/
theorem shuffle_perm (rand : Nat → Nat) (deck : List Card) :
    List.Perm (shuffle rand deck) deck :=
  fyLoop_perm rand (deck.length - 1) deck

/-- `initGame` from `src/App.tsx`, as a function of the shuffled deck it
starts from (`createDeck()` in the source).  The two `splice(0, 8)` calls
become `take`/`drop`; `findIndex` returning `-1` becomes `findIdx`
returning the length; `splice(firstCardIndex, 1)` becomes
`eraseIdx`/`getElem?`. -/
def initGame (fullDeck : List Card) : GameState :=
  let playerHand := fullDeck.take 8
  let rest1 := fullDeck.drop 8
  let aiHand := rest1.take 8
  let rest2 := rest1.drop 8
  let i0 := rest2.findIdx fun c => decide (c.rank ≠ Rank.r8)
  let firstCardIndex := if i0 = rest2.length then 0 else i0
  { deck := rest2.eraseIdx firstCardIndex,
    playerHand := playerHand,
    aiHand := aiHand,
    discardPile := (rest2[firstCardIndex]?).toList,
    currentSuit := none,
    turn := Player.player,
    status := Status.playing,
    winner := none }

/-- `reshuffleIfNeeded` from `src/App.tsx`. -/
def reshuffleIfNeeded (rand : Nat → Nat) (prev : GameState) : GameState :=
  if 2 < prev.deck.length ∨ prev.discardPile.length ≤ 1 then prev
  else
    { prev with
      deck := shuffle rand (prev.deck ++ prev.discardPile.dropLast),
      discardPile := prev.discardPile.getLast?.toList }

/-- `playCard` from `src/App.tsx`: remove the card from the acting
player's hand by id, append it to the discard pile, set
`currentSuit := chosenSuit || null`, flip the turn to the other player. -/
def playCard (prev : GameState) (card : Card) (isPlayer : Bool) (chosenSuit : Option Suit) :
    GameState :=
  let hand := if isPlayer then prev.playerHand else prev.aiHand
  let newHand := hand.filter fun c => decide (c.id ≠ card.id)
  if isPlayer then
    { prev with
      playerHand := newHand,
      discardPile := prev.discardPile ++ [card],
      currentSuit := chosenSuit,
      turn := Player.ai }
  else
    { prev with
      aiHand := newHand,
      discardPile := prev.discardPile ++ [card],
      currentSuit := chosenSuit,
      turn := Player.player }

/-- The first `setState` of `drawCard` from `src/App.tsx`: no-op on an
empty draw pile; otherwise pop the tail card, append it to the drawing
player's hand, and keep the turn only if the drawn card is playable.
(The subsequent `reshuffleIfNeeded()` call is composed in the `Op`
semantics below.) -/
def drawCard (prev : GameState) (isPlayer : Bool) : GameState :=
  match prev.deck.getLast? with
  | none => prev
  | some drawnCard =>
    let newDeck := prev.deck.dropLast
    let topCard := prev.discardPile.getLast?
    let canPlayDrawn := canPlay (some drawnCard) topCard prev.currentSuit
    if isPlayer then
      { prev with
        deck := newDeck,
        playerHand := prev.playerHand ++ [drawnCard],
        turn := if canPlayDrawn then Player.player else Player.ai }
    else
      { prev with
        deck := newDeck,
        aiHand := prev.aiHand ++ [drawnCard],
        turn := if canPlayDrawn then Player.ai else Player.player }

/-- The winner-check effect of `src/App.tsx`: while playing, an empty
human hand wins for the human (checked first), else an empty AI hand
wins for the AI. -/
def checkWinner (s : GameState) : GameState :=
  if s.status = Status.playing then
    if s.playerHand.isEmpty then
      { s with status := Status.game_over, winner := some Player.player }
    else if s.aiHand.isEmpty then
      { s with status := Status.game_over, winner := some Player.ai }
    else s
  else s

/-- `suitCounts` accumulation of the AI effect: occurrences of suit `s`
in `hand`, excluding the card with id `excludeId`. -/
def suitCountExcl (hand : List Card) (excludeId : Nat) (s : Suit) : Nat :=
  (hand.filter fun c => decide (c.id ≠ excludeId ∧ c.suit = s)).length

/-- The `bestSuit` reduce of the AI effect:
`(Object.keys(suitCounts) as Suit[]).reduce((a, b) => suitCounts[a] > suitCounts[b] ? a : b)`
over the key order hearts, diamonds, clubs, spades. -/
def bestSuitOf (counts : Suit → Nat) : Suit :=
  [Suit.diamonds, Suit.clubs, Suit.spades].foldl
    (fun a b => if counts a > counts b then a else b) Suit.hearts

/-- The body of the AI-turn `setState` in `src/App.tsx` (minus the
staleness re-check, which the sequential guard in `aiTurn` covers). -/
def aiStepInner (current : GameState) : GameState :=
  match current.discardPile.getLast? with
  | none => current
  | some topCard =>
    -- `playableCards` of the source is the filter below
    match current.aiHand.filter fun card => canPlay (some card) (some topCard) current.currentSuit with
    | [] =>
      -- AI must draw
      match current.deck.getLast? with
      | some drawnCard =>
        { current with
          deck := current.deck.dropLast,
          aiHand := current.aiHand ++ [drawnCard],
          turn :=
            if canPlay (some drawnCard) (some topCard) current.currentSuit then Player.ai
            else Player.player }
      | none => { current with turn := Player.player }
    | first :: rest =>
      let cardToPlay := ((first :: rest).find? fun c => decide (c.rank ≠ Rank.r8)).getD first
      if cardToPlay.rank = Rank.r8 then
        let bestSuit := bestSuitOf (suitCountExcl current.aiHand cardToPlay.id)
        { current with
          aiHand := current.aiHand.filter fun c => decide (c.id ≠ cardToPlay.id),
          discardPile := current.discardPile ++ [cardToPlay],
          currentSuit := some bestSuit,
          turn := Player.player }
      else
        { current with
          aiHand := current.aiHand.filter fun c => decide (c.id ≠ cardToPlay.id),
          discardPile := current.discardPile ++ [cardToPlay],
          currentSuit := none,
          turn := Player.player }

/-- One complete AI turn: the effect fires only while playing on the AI's
turn, runs the `setState` body, then calls `reshuffleIfNeeded()`. -/
def aiTurn (rand : Nat → Nat) (state : GameState) : GameState :=
  if state.status = Status.playing ∧ state.turn = Player.ai then
    reshuffleIfNeeded rand (aiStepInner state)
  else state

/-- The component state: the `GameState` plus the separate
`pendingEightCard` `useState`. -/
structure UIState where
  game : GameState
  pendingEight : Option Card
deriving DecidableEq

/-- `handlePlayerPlay` from `src/App.tsx`. -/
def handlePlayerPlay (card : Card) (s : UIState) : UIState :=
  if s.game.turn = Player.player ∧ s.game.status = Status.playing then
    match s.game.discardPile.getLast? with
    | none => s
    | some topCard =>
      if canPlay (some card) (some topCard) s.game.currentSuit then
        if card.rank = Rank.r8 then
          { s with
            pendingEight := some card,
            game := { s.game with status := Status.suit_selection } }
        else
          { s with game := playCard s.game card true none }
      else s
  else s

/-- `handleSuitSelect` from `src/App.tsx`.  The leading status guard
models that the suit-selection modal (the only caller) is rendered only
while `status === 'suit_selection'`. -/
def handleSuitSelect (suit : Suit) (s : UIState) : UIState :=
  if s.game.status = Status.suit_selection then
    match s.pendingEight with
    | some c =>
      { pendingEight := none,
        game := { playCard s.game c true (some suit) with status := Status.playing } }
    | none => s
  else s

/-- The human draw intent: the draw-pile `onClick` guard
(`state.turn === 'player' && state.status === 'playing'`), then
`drawCard('player')`, which ends with a `reshuffleIfNeeded()` call. -/
def playerDraw (rand : Nat → Nat) (s : GameState) : GameState :=
  if s.turn = Player.player ∧ s.status = Status.playing then
    reshuffleIfNeeded rand (drawCard s true)
  else s

/-- The mutating intents a running game accepts, each carrying the
random tape its internal `shuffle` calls would consume. -/
inductive Op : Type where
  | play (card : Card)
  | draw (rand : Nat → Nat)
  | suitSelect (suit : Suit)
  | ai (rand : Nat → Nat)
  | winCheck

def applyOp (s : UIState) : Op → UIState
  | Op.play card => handlePlayerPlay card s
  | Op.draw rand => { s with game := playerDraw rand s.game }
  | Op.suitSelect suit => handleSuitSelect suit s
  | Op.ai rand => { s with game := aiTurn rand s.game }
  | Op.winCheck => { s with game := checkWinner s.game }

def applyOps (s : UIState) : List Op → UIState
  | [] => s
  | op :: ops => applyOps (applyOp s op) ops

/-- An operation is valid when the UI could actually issue it: a play
click can only come from a card rendered in the human hand. -/
def OpValid (s : UIState) : Op → Prop
  | Op.play card => card ∈ s.game.playerHand
  | _ => True

inductive ValidSeq : UIState → List Op → Prop
  | nil (s : UIState) : ValidSeq s []
  | cons (s : UIState) (op : Op) (ops : List Op) :
      OpValid s op → ValidSeq (applyOp s op) ops → ValidSeq s (op :: ops)

/-- All cards of the four zones: human hand, AI hand, draw pile, discard
pile. -/
def cards (s : UIState) : List Card :=
  s.game.playerHand ++ s.game.aiHand ++ s.game.deck ++ s.game.discardPile

def cardsG (g : GameState) : List Card :=
  g.playerHand ++ g.aiHand ++ g.deck ++ g.discardPile

/-- State invariant: all identity tokens across the four zones are
distinct, and while awaiting a suit choice the pending wild card is (still)
in the human hand. -/
def Inv (s : UIState) : Prop :=
  ((cards s).map Card.id).Nodup ∧
  (s.game.status = Status.suit_selection →
    ∃ c, s.pendingEight = some c ∧ c ∈ s.game.playerHand)

theorem cards_eq_cardsG (s : UIState) : cards s = cardsG s.game := rfl

/-- Removing a card (by its unique id) from a hand that contains it
leaves a permutation witness: the hand is the card plus the filtered
hand. -/
theorem hand_remove_perm (hand : List Card) (card : Card)
    (hmem : card ∈ hand) (hnd : (hand.map Card.id).Nodup) :
    List.Perm hand (card :: hand.filter fun c => decide (c.id ≠ card.id)) := by
  induction hand with
  | nil => simp at hmem
  | cons b t ih =>
    have hnd1 : b.id ∉ t.map Card.id := by
      rw [List.map_cons, List.nodup_cons] at hnd
      exact hnd.1
    have hnd2 : (t.map Card.id).Nodup := by
      rw [List.map_cons, List.nodup_cons] at hnd
      exact hnd.2
    by_cases hb : b = card
    · subst hb
      have hnotin : ∀ c ∈ t, c.id ≠ b.id := by
        intro c hc he
        exact hnd1 (he ▸ List.mem_map_of_mem Card.id hc)
      have h1 : (List.filter (fun c => decide (c.id ≠ b.id)) (b :: t)) =
          List.filter (fun c => decide (c.id ≠ b.id)) t := by
        rw [List.filter_cons]
        simp
      have h2 : List.filter (fun c => decide (c.id ≠ b.id)) t = t :=
        List.filter_eq_self.2 fun c hc => by simp [hnotin c hc]
      rw [h1, h2]
    · have hmem' : card ∈ t := by
        cases hmem with
        | head => exact absurd rfl hb
        | tail _ h => exact h
      have hidne : b.id ≠ card.id := by
        intro he
        exact hnd1 (he ▸ List.mem_map_of_mem Card.id hmem')
      have ihp := ih hmem' hnd2
      have hcons : (List.filter (fun c => decide (c.id ≠ card.id)) (b :: t)) =
          b :: t.filter fun c => decide (c.id ≠ card.id) := by
        rw [List.filter_cons]
        simp [hidne]
      rw [hcons]
      exact (List.Perm.cons b ihp).trans (List.Perm.swap card b _)

theorem coe_perm {l₁ l₂ : List Card} (h : List.Perm l₁ l₂) :
    (l₁ : Multiset Card) = (l₂ : List Card) :=
  Multiset.coe_eq_coe.2 h

theorem getLast?_decomp {l : List Card} {x : Card} (h : l.getLast? = some x) :
    l.dropLast ++ [x] = l := by
  have hne : l ≠ [] := by
    intro hnil
    rw [hnil] at h
    simp at h
  have h2 := List.getLast?_eq_getLast l hne
  rw [h2] at h
  have h3 : x = l.getLast hne := by
    exact (Option.some_inj.1 h).symm
  rw [h3]
  exact List.dropLast_concat_getLast hne

/-- `reshuffleIfNeeded` preserves the multiset of cards in play. -/
theorem reshuffleIfNeeded_perm (rand : Nat → Nat) (g : GameState) :
    List.Perm (cardsG (reshuffleIfNeeded rand g)) (cardsG g) := by
  unfold reshuffleIfNeeded
  by_cases hguard : 2 < g.deck.length ∨ g.discardPile.length ≤ 1
  · simp [hguard]
  · simp only [hguard, if_false]
    have hlen : 2 ≤ g.discardPile.length := by
      push_neg at hguard
      omega
    have hne : g.discardPile ≠ [] := by
      intro hnil
      rw [hnil] at hlen
      simp at hlen
    obtain ⟨t, ht⟩ : ∃ t, g.discardPile.getLast? = some t :=
      ⟨g.discardPile.getLast hne, List.getLast?_eq_getLast _ hne⟩
    have hD : g.discardPile.dropLast ++ [t] = g.discardPile := getLast?_decomp ht
    have hsh := shuffle_perm rand (g.deck ++ g.discardPile.dropLast)
    unfold cardsG
    simp only [ht, Option.toList_some]
    rw [← Multiset.coe_eq_coe]
    have hsh' := coe_perm hsh
    have hD' : (g.discardPile.dropLast : Multiset Card) + ([t] : List Card) =
        (g.discardPile : List Card) := by
      rw [Multiset.coe_add, hD]
    simp only [← Multiset.coe_add, hsh']
    rw [← hD']
    abel

/-- `drawCard` preserves the multiset of cards in play. -/
theorem drawCard_perm (g : GameState) (isPlayer : Bool) :
    List.Perm (cardsG (drawCard g isPlayer)) (cardsG g) := by
  unfold drawCard
  cases hd : g.deck.getLast? with
  | none => exact List.Perm.refl _
  | some drawn =>
    have hdeck : g.deck.dropLast ++ [drawn] = g.deck := getLast?_decomp hd
    have hdeck' : (g.deck.dropLast : Multiset Card) + ([drawn] : List Card) =
        (g.deck : List Card) := by
      rw [Multiset.coe_add, hdeck]
    cases isPlayer with
    | true =>
      show List.Perm
        (cardsG
          { g with
            deck := g.deck.dropLast,
            playerHand := g.playerHand ++ [drawn],
            turn :=
              if canPlay (some drawn) g.discardPile.getLast? g.currentSuit then Player.player
              else Player.ai })
        (cardsG g)
      unfold cardsG
      rw [← Multiset.coe_eq_coe]
      simp only [← Multiset.coe_add]
      rw [← hdeck']
      abel
    | false =>
      show List.Perm
        (cardsG
          { g with
            deck := g.deck.dropLast,
            aiHand := g.aiHand ++ [drawn],
            turn :=
              if canPlay (some drawn) g.discardPile.getLast? g.currentSuit then Player.ai
              else Player.player })
        (cardsG g)
      unfold cardsG
      rw [← Multiset.coe_eq_coe]
      simp only [← Multiset.coe_add]
      rw [← hdeck']
      abel

/-- `playCard` preserves the multiset of cards in play, provided the
played card is in the acting player's hand and that hand's ids are
distinct. -/
theorem playCard_perm (g : GameState) (card : Card) (isPlayer : Bool) (suit : Option Suit)
    (hmem : card ∈ (if isPlayer then g.playerHand else g.aiHand))
    (hnd : ((if isPlayer then g.playerHand else g.aiHand).map Card.id).Nodup) :
    List.Perm (cardsG (playCard g card isPlayer suit)) (cardsG g) := by
  cases isPlayer with
  | true =>
    have hmem2 : card ∈ g.playerHand := hmem
    have hnd2 : (g.playerHand.map Card.id).Nodup := hnd
    have hperm := hand_remove_perm g.playerHand card hmem2 hnd2
    have hperm' : (g.playerHand : Multiset Card) =
        (([card] ++ g.playerHand.filter fun c => decide (c.id ≠ card.id) : List Card) :
          Multiset Card) := by
      rw [Multiset.coe_eq_coe]
      simpa using hperm
    show List.Perm (cardsG
      { g with
        playerHand := g.playerHand.filter fun c => decide (c.id ≠ card.id),
        discardPile := g.discardPile ++ [card],
        currentSuit := suit,
        turn := Player.ai }) (cardsG g)
    unfold cardsG
    rw [← Multiset.coe_eq_coe]
    simp only [← Multiset.coe_add]
    rw [show ((g.playerHand : List Card) : Multiset Card) =
        ([card] : List Card) + ((g.playerHand.filter fun c => decide (c.id ≠ card.id) :
          List Card) : Multiset Card) by rw [Multiset.coe_add]; exact hperm']
    abel
  | false =>
    have hmem2 : card ∈ g.aiHand := hmem
    have hnd2 : (g.aiHand.map Card.id).Nodup := hnd
    have hperm := hand_remove_perm g.aiHand card hmem2 hnd2
    have hperm' : (g.aiHand : Multiset Card) =
        (([card] ++ g.aiHand.filter fun c => decide (c.id ≠ card.id) : List Card) :
          Multiset Card) := by
      rw [Multiset.coe_eq_coe]
      simpa using hperm
    show List.Perm (cardsG
      { g with
        aiHand := g.aiHand.filter fun c => decide (c.id ≠ card.id),
        discardPile := g.discardPile ++ [card],
        currentSuit := suit,
        turn := Player.player }) (cardsG g)
    unfold cardsG
    rw [← Multiset.coe_eq_coe]
    simp only [← Multiset.coe_add]
    rw [show ((g.aiHand : List Card) : Multiset Card) =
        ([card] : List Card) + ((g.aiHand.filter fun c => decide (c.id ≠ card.id) :
          List Card) : Multiset Card) by rw [Multiset.coe_add]; exact hperm']
    abel

/-- The AI `setState` body preserves the multiset of cards in play,
provided the AI hand's ids are distinct. -/
theorem aiStepInner_perm (g : GameState) (hnd : (g.aiHand.map Card.id).Nodup) :
    List.Perm (cardsG (aiStepInner g)) (cardsG g) := by
  cases htop : g.discardPile.getLast? with
  | none =>
    rw [show aiStepInner g = g from by simp [aiStepInner, htop]]
  | some topCard =>
    cases hp : (g.aiHand.filter fun card =>
        canPlay (some card) (some topCard) g.currentSuit) with
    | nil =>
      cases hd : g.deck.getLast? with
      | none =>
        rw [show aiStepInner g = { g with turn := Player.player } from by
          simp [aiStepInner, htop, hp, hd]]
        unfold cardsG
        exact List.Perm.refl _
      | some drawn =>
        have hdeck : g.deck.dropLast ++ [drawn] = g.deck := getLast?_decomp hd
        have hdeck' : (g.deck.dropLast : Multiset Card) + ([drawn] : List Card) =
            (g.deck : List Card) := by
          rw [Multiset.coe_add, hdeck]
        rw [show aiStepInner g =
            { g with
              deck := g.deck.dropLast,
              aiHand := g.aiHand ++ [drawn],
              turn :=
                if canPlay (some drawn) (some topCard) g.currentSuit then Player.ai
                else Player.player } from by simp [aiStepInner, htop, hp, hd]]
        unfold cardsG
        rw [← Multiset.coe_eq_coe]
        simp only [← Multiset.coe_add]
        rw [← hdeck']
        abel
    | cons first rest =>
      have hchosen : ∀ c : Card, c ∈ first :: rest → c ∈ g.aiHand := by
        intro c hc
        have hcf : c ∈ g.aiHand.filter fun card =>
            canPlay (some card) (some topCard) g.currentSuit := by
          rw [hp]; exact hc
        exact List.mem_of_mem_filter hcf
      have hmem : (((first :: rest).find? fun c => decide (c.rank ≠ Rank.r8)).getD first)
          ∈ g.aiHand := by
        apply hchosen
        cases hf : (first :: rest).find? fun c => decide (c.rank ≠ Rank.r8) with
        | none => simp [List.mem_cons]
        | some c =>
          simp only [Option.getD_some]
          exact List.mem_of_find?_eq_some hf
      generalize hcp : (((first :: rest).find? fun c => decide (c.rank ≠ Rank.r8)).getD first)
        = cardToPlay at hmem
      simp only [decide_not] at hcp
      have hperm := hand_remove_perm g.aiHand cardToPlay hmem hnd
      have hperm' : ((g.aiHand : List Card) : Multiset Card) =
          ([cardToPlay] : List Card) +
            ((g.aiHand.filter fun c => decide (c.id ≠ cardToPlay.id) : List Card) :
              Multiset Card) := by
        rw [Multiset.coe_add, Multiset.coe_eq_coe]
        simpa using hperm
      by_cases h8 : cardToPlay.rank = Rank.r8
      · rw [show aiStepInner g =
            { g with
              aiHand := g.aiHand.filter fun c => decide (c.id ≠ cardToPlay.id),
              discardPile := g.discardPile ++ [cardToPlay],
              currentSuit := some (bestSuitOf (suitCountExcl g.aiHand cardToPlay.id)),
              turn := Player.player } from by simp [aiStepInner, htop, hp, hcp, h8]]
        unfold cardsG
        rw [← Multiset.coe_eq_coe]
        simp only [← Multiset.coe_add]
        rw [hperm']
        abel
      · rw [show aiStepInner g =
            { g with
              aiHand := g.aiHand.filter fun c => decide (c.id ≠ cardToPlay.id),
              discardPile := g.discardPile ++ [cardToPlay],
              currentSuit := none,
              turn := Player.player } from by simp [aiStepInner, htop, hp, hcp, h8]]
        unfold cardsG
        rw [← Multiset.coe_eq_coe]
        simp only [← Multiset.coe_add]
        rw [hperm']
        abel

theorem reshuffleIfNeeded_status (rand : Nat → Nat) (g : GameState) :
    (reshuffleIfNeeded rand g).status = g.status := by
  unfold reshuffleIfNeeded
  split <;> rfl

theorem reshuffleIfNeeded_playerHand (rand : Nat → Nat) (g : GameState) :
    (reshuffleIfNeeded rand g).playerHand = g.playerHand := by
  unfold reshuffleIfNeeded
  split <;> rfl

theorem drawCard_status (g : GameState) (b : Bool) : (drawCard g b).status = g.status := by
  unfold drawCard
  cases g.deck.getLast? <;> cases b <;> rfl

theorem aiStepInner_eq_noTop {g : GameState} (htop : g.discardPile.getLast? = none) :
    aiStepInner g = g := by
  simp [aiStepInner, htop]

theorem aiStepInner_eq_deckEmpty {g : GameState} {topCard : Card}
    (htop : g.discardPile.getLast? = some topCard)
    (hp : (g.aiHand.filter fun card => canPlay (some card) (some topCard) g.currentSuit) = [])
    (hd : g.deck.getLast? = none) :
    aiStepInner g = { g with turn := Player.player } := by
  simp [aiStepInner, htop, hp, hd]

theorem aiStepInner_eq_draw {g : GameState} {topCard drawn : Card}
    (htop : g.discardPile.getLast? = some topCard)
    (hp : (g.aiHand.filter fun card => canPlay (some card) (some topCard) g.currentSuit) = [])
    (hd : g.deck.getLast? = some drawn) :
    aiStepInner g =
      { g with
        deck := g.deck.dropLast,
        aiHand := g.aiHand ++ [drawn],
        turn :=
          if canPlay (some drawn) (some topCard) g.currentSuit then Player.ai
          else Player.player } := by
  simp [aiStepInner, htop, hp, hd]

theorem aiStepInner_eq_play {g : GameState} {topCard first : Card} {rest : List Card}
    (htop : g.discardPile.getLast? = some topCard)
    (hp : (g.aiHand.filter fun card => canPlay (some card) (some topCard) g.currentSuit) =
      first :: rest)
    {c : Card}
    (hc : (((first :: rest).find? fun x => decide (x.rank ≠ Rank.r8)).getD first) = c) :
    aiStepInner g =
      if c.rank = Rank.r8 then
        { g with
          aiHand := g.aiHand.filter fun x => decide (x.id ≠ c.id),
          discardPile := g.discardPile ++ [c],
          currentSuit := some (bestSuitOf (suitCountExcl g.aiHand c.id)),
          turn := Player.player }
      else
        { g with
          aiHand := g.aiHand.filter fun x => decide (x.id ≠ c.id),
          discardPile := g.discardPile ++ [c],
          currentSuit := none,
          turn := Player.player } := by
  subst hc
  simp [aiStepInner, htop, hp]

theorem aiStepInner_status (g : GameState) : (aiStepInner g).status = g.status := by
  cases htop : g.discardPile.getLast? with
  | none => rw [aiStepInner_eq_noTop htop]
  | some topCard =>
    cases hp : g.aiHand.filter fun card => canPlay (some card) (some topCard) g.currentSuit with
    | nil =>
      cases hd : g.deck.getLast? with
      | none => rw [aiStepInner_eq_deckEmpty htop hp hd]
      | some drawn => rw [aiStepInner_eq_draw htop hp hd]
    | cons first rest =>
      rw [aiStepInner_eq_play htop hp rfl]
      split <;> rfl

theorem checkWinner_cards (g : GameState) : cardsG (checkWinner g) = cardsG g := by
  unfold checkWinner
  split
  · split
    · rfl
    · split <;> rfl
  · rfl

theorem sublist_player (s : UIState) : List.Sublist s.game.playerHand (cards s) := by
  unfold cards
  exact ((List.sublist_append_left _ _).trans (List.sublist_append_left _ _)).trans
    (List.sublist_append_left _ _)

theorem sublist_ai (s : UIState) : List.Sublist s.game.aiHand (cards s) := by
  unfold cards
  exact (((List.sublist_append_right _ _).trans (List.sublist_append_left _ _)).trans
    (List.sublist_append_left _ _) : List.Sublist s.game.aiHand _)

theorem inv_playerHand_nodup {s : UIState} (h : Inv s) :
    (s.game.playerHand.map Card.id).Nodup :=
  List.Nodup.sublist ((sublist_player s).map Card.id) h.1

theorem inv_aiHand_nodup {s : UIState} (h : Inv s) :
    (s.game.aiHand.map Card.id).Nodup :=
  List.Nodup.sublist ((sublist_ai s).map Card.id) h.1

theorem handlePlayerPlay_eq_guardFail {card : Card} {s : UIState}
    (hg : ¬(s.game.turn = Player.player ∧ s.game.status = Status.playing)) :
    handlePlayerPlay card s = s := by
  unfold handlePlayerPlay
  rw [if_neg hg]

theorem handlePlayerPlay_eq_noTop {card : Card} {s : UIState}
    (h1 : s.game.turn = Player.player) (h2 : s.game.status = Status.playing)
    (htop : s.game.discardPile.getLast? = none) :
    handlePlayerPlay card s = s := by
  simp [handlePlayerPlay, h1, h2, htop]

theorem handlePlayerPlay_eq_illegal {card : Card} {s : UIState} {topCard : Card}
    (h1 : s.game.turn = Player.player) (h2 : s.game.status = Status.playing)
    (htop : s.game.discardPile.getLast? = some topCard)
    (hlegal : canPlay (some card) (some topCard) s.game.currentSuit = false) :
    handlePlayerPlay card s = s := by
  simp [handlePlayerPlay, h1, h2, htop, hlegal]

theorem handlePlayerPlay_eq_wild {card : Card} {s : UIState} {topCard : Card}
    (h1 : s.game.turn = Player.player) (h2 : s.game.status = Status.playing)
    (htop : s.game.discardPile.getLast? = some topCard)
    (hlegal : canPlay (some card) (some topCard) s.game.currentSuit = true)
    (h8 : card.rank = Rank.r8) :
    handlePlayerPlay card s =
      { s with
        pendingEight := some card,
        game := { s.game with status := Status.suit_selection } } := by
  simp [handlePlayerPlay, h1, h2, htop, hlegal, h8]

theorem handlePlayerPlay_eq_normal {card : Card} {s : UIState} {topCard : Card}
    (h1 : s.game.turn = Player.player) (h2 : s.game.status = Status.playing)
    (htop : s.game.discardPile.getLast? = some topCard)
    (hlegal : canPlay (some card) (some topCard) s.game.currentSuit = true)
    (h8 : ¬card.rank = Rank.r8) :
    handlePlayerPlay card s = { s with game := playCard s.game card true none } := by
  simp [handlePlayerPlay, h1, h2, htop, hlegal, h8]

theorem handleSuitSelect_eq_wrongPhase {suit : Suit} {s : UIState}
    (hst : ¬s.game.status = Status.suit_selection) :
    handleSuitSelect suit s = s := by
  unfold handleSuitSelect
  rw [if_neg hst]

theorem handleSuitSelect_eq_noPending {suit : Suit} {s : UIState}
    (hst : s.game.status = Status.suit_selection) (hpe : s.pendingEight = none) :
    handleSuitSelect suit s = s := by
  simp [handleSuitSelect, hst, hpe]

theorem handleSuitSelect_eq_some {suit : Suit} {s : UIState} {c : Card}
    (hst : s.game.status = Status.suit_selection) (hpe : s.pendingEight = some c) :
    handleSuitSelect suit s =
      { pendingEight := none,
        game := { playCard s.game c true (some suit) with status := Status.playing } } := by
  simp [handleSuitSelect, hst, hpe]

theorem applyOp_play (s : UIState) (card : Card) :
    applyOp s (Op.play card) = handlePlayerPlay card s := rfl

theorem applyOp_draw (s : UIState) (rand : Nat → Nat) :
    applyOp s (Op.draw rand) = { s with game := playerDraw rand s.game } := rfl

theorem applyOp_suitSelect (s : UIState) (suit : Suit) :
    applyOp s (Op.suitSelect suit) = handleSuitSelect suit s := rfl

theorem applyOp_ai (s : UIState) (rand : Nat → Nat) :
    applyOp s (Op.ai rand) = { s with game := aiTurn rand s.game } := rfl

theorem applyOp_winCheck (s : UIState) :
    applyOp s Op.winCheck = { s with game := checkWinner s.game } := rfl

/-- One valid operation preserves the multiset of cards in play and the
state invariant. -/
theorem applyOp_perm_inv (s : UIState) (op : Op) (h : Inv s) (hv : OpValid s op) :
    List.Perm (cards (applyOp s op)) (cards s) ∧ Inv (applyOp s op) := by
  have hnodup_of : ∀ s' : UIState, List.Perm (cards s') (cards s) →
      ((cards s').map Card.id).Nodup := by
    intro s' hp
    exact ((hp.map Card.id).nodup_iff).2 h.1
  cases op with
  | play card =>
    rw [applyOp_play]
    have hv2 : card ∈ s.game.playerHand := hv
    by_cases hguard : s.game.turn = Player.player ∧ s.game.status = Status.playing
    · cases htop : s.game.discardPile.getLast? with
      | none =>
        rw [handlePlayerPlay_eq_noTop hguard.1 hguard.2 htop]
        exact ⟨List.Perm.refl _, h⟩
      | some topCard =>
        cases hlegal : canPlay (some card) (some topCard) s.game.currentSuit with
        | false =>
          rw [handlePlayerPlay_eq_illegal hguard.1 hguard.2 htop hlegal]
          exact ⟨List.Perm.refl _, h⟩
        | true =>
          by_cases h8 : card.rank = Rank.r8
          · rw [handlePlayerPlay_eq_wild hguard.1 hguard.2 htop hlegal h8]
            refine ⟨List.Perm.refl _, ?_⟩
            unfold Inv
            refine ⟨h.1, ?_⟩
            intro _
            exact ⟨card, rfl, hv2⟩
          · rw [handlePlayerPlay_eq_normal hguard.1 hguard.2 htop hlegal h8]
            have hperm : List.Perm (cards { s with game := playCard s.game card true none })
                (cards s) :=
              playCard_perm s.game card true none hv2 (inv_playerHand_nodup h)
            refine ⟨hperm, hnodup_of _ hperm, ?_⟩
            intro hst
            exfalso
            have hst2 : s.game.status = Status.suit_selection := hst
            rw [hguard.2] at hst2
            exact Status.noConfusion hst2
    · rw [handlePlayerPlay_eq_guardFail hguard]
      exact ⟨List.Perm.refl _, h⟩
  | draw rand =>
    rw [applyOp_draw]
    unfold playerDraw
    by_cases hguard : s.game.turn = Player.player ∧ s.game.status = Status.playing
    · rw [if_pos hguard]
      have hperm : List.Perm
          (cards { s with game := reshuffleIfNeeded rand (drawCard s.game true) })
          (cards s) :=
        (reshuffleIfNeeded_perm rand _).trans (drawCard_perm s.game true)
      refine ⟨hperm, hnodup_of _ hperm, ?_⟩
      intro hst
      exfalso
      have hs1 : (reshuffleIfNeeded rand (drawCard s.game true)).status = s.game.status := by
        rw [reshuffleIfNeeded_status, drawCard_status]
      have hst2 : (reshuffleIfNeeded rand (drawCard s.game true)).status =
          Status.suit_selection := hst
      rw [hs1, hguard.2] at hst2
      exact Status.noConfusion hst2
    · rw [if_neg hguard]
      exact ⟨List.Perm.refl _, h⟩
  | suitSelect suit =>
    rw [applyOp_suitSelect]
    by_cases hst : s.game.status = Status.suit_selection
    · cases hpe : s.pendingEight with
      | none =>
        rw [handleSuitSelect_eq_noPending hst hpe]
        exact ⟨List.Perm.refl _, h⟩
      | some c =>
        obtain ⟨c2, hc2, hcmem⟩ := h.2 hst
        rw [hpe] at hc2
        have hcc : c = c2 := by
          injection hc2
        rw [handleSuitSelect_eq_some hst hpe]
        have hperm : List.Perm
            (cards { pendingEight := none,
                     game := { playCard s.game c true (some suit) with
                       status := Status.playing } })
            (cards s) :=
          playCard_perm s.game c true (some suit) (hcc ▸ hcmem) (inv_playerHand_nodup h)
        refine ⟨hperm, hnodup_of _ hperm, ?_⟩
        intro hst2
        exfalso
        exact Status.noConfusion (hst2 : Status.playing = Status.suit_selection)
    · rw [handleSuitSelect_eq_wrongPhase hst]
      exact ⟨List.Perm.refl _, h⟩
  | ai rand =>
    rw [applyOp_ai]
    unfold aiTurn
    by_cases hguard : s.game.status = Status.playing ∧ s.game.turn = Player.ai
    · rw [if_pos hguard]
      have hperm : List.Perm
          (cards { s with game := reshuffleIfNeeded rand (aiStepInner s.game) })
          (cards s) :=
        (reshuffleIfNeeded_perm rand _).trans (aiStepInner_perm s.game (inv_aiHand_nodup h))
      refine ⟨hperm, hnodup_of _ hperm, ?_⟩
      intro hst
      exfalso
      have hs1 : (reshuffleIfNeeded rand (aiStepInner s.game)).status = s.game.status := by
        rw [reshuffleIfNeeded_status, aiStepInner_status]
      have hst2 : (reshuffleIfNeeded rand (aiStepInner s.game)).status =
          Status.suit_selection := hst
      rw [hs1, hguard.1] at hst2
      exact Status.noConfusion hst2
    · rw [if_neg hguard]
      exact ⟨List.Perm.refl _, h⟩
  | winCheck =>
    rw [applyOp_winCheck]
    have hcards : cards { s with game := checkWinner s.game } = cards s :=
      checkWinner_cards s.game
    refine ⟨hcards ▸ List.Perm.refl _, ?_⟩
    unfold Inv
    constructor
    · rw [hcards]
      exact h.1
    · intro hst
      by_cases hpl : s.game.status = Status.playing
      · exfalso
        have hst2 : (checkWinner s.game).status = Status.suit_selection := hst
        unfold checkWinner at hst2
        rw [if_pos hpl] at hst2
        by_cases hpe : s.game.playerHand.isEmpty
        · rw [if_pos hpe] at hst2
          exact Status.noConfusion hst2
        · rw [if_neg hpe] at hst2
          by_cases hae : s.game.aiHand.isEmpty
          · rw [if_pos hae] at hst2
            exact Status.noConfusion hst2
          · rw [if_neg hae] at hst2
            rw [hpl] at hst2
            exact Status.noConfusion hst2
      · have heq : checkWinner s.game = s.game := by
          unfold checkWinner
          rw [if_neg hpl]
        have hst2 : (checkWinner s.game).status = Status.suit_selection := hst
        rw [heq] at hst2
        obtain ⟨c, hc, hcm⟩ := h.2 hst2
        refine ⟨c, hc, ?_⟩
        show c ∈ (checkWinner s.game).playerHand
        rw [heq]
        exact hcm

theorem applyOps_perm_inv (ops : List Op) (s : UIState) (h : Inv s) (hv : ValidSeq s ops) :
    List.Perm (cards (applyOps s ops)) (cards s) ∧ Inv (applyOps s ops) := by
  induction ops generalizing s with
  | nil => exact ⟨List.Perm.refl _, h⟩
  | cons op ops ih =>
    cases hv with
    | cons _ _ _ hop hrest =>
      obtain ⟨h1, h2⟩ := applyOp_perm_inv s op h hop
      obtain ⟨h3, h4⟩ := ih (applyOp s op) h2 hrest
      exact ⟨h3.trans h1, h4⟩

theorem eraseIdx_cons_perm (l : List Card) (i : Nat) {x : Card}
    (hx : l[i]? = some x) :
    List.Perm (l.eraseIdx i ++ [x]) l := by
  obtain ⟨hh, he⟩ := (List.getElem?_eq_some_iff).1 hx
  rw [List.eraseIdx_eq_take_drop_succ]
  have h1 : List.Perm ((l.take i ++ l.drop (i + 1)) ++ [x])
      (x :: (l.take i ++ l.drop (i + 1))) := List.perm_append_singleton x _
  have h2 : List.Perm (x :: (l.take i ++ l.drop (i + 1)))
      (l.take i ++ x :: l.drop (i + 1)) := List.Perm.symm List.perm_middle
  have h3 : l.take i ++ x :: l.drop (i + 1) = l := by
    rw [← he, List.getElem_cons_drop l i hh, List.take_append_drop]
  have h4 : List.Perm (l.take i ++ x :: l.drop (i + 1)) l := by
    rw [h3]
  exact h1.trans (h2.trans h4)

theorem initGame_eq (d : List Card) :
    initGame d =
      { deck := ((d.drop 8).drop 8).eraseIdx
          (if (((d.drop 8).drop 8).findIdx fun c => decide (c.rank ≠ Rank.r8)) =
              ((d.drop 8).drop 8).length then 0
           else ((d.drop 8).drop 8).findIdx fun c => decide (c.rank ≠ Rank.r8)),
        playerHand := d.take 8,
        aiHand := (d.drop 8).take 8,
        discardPile := (((d.drop 8).drop 8)[
          (if (((d.drop 8).drop 8).findIdx fun c => decide (c.rank ≠ Rank.r8)) =
              ((d.drop 8).drop 8).length then 0
           else ((d.drop 8).drop 8).findIdx fun c => decide (c.rank ≠ Rank.r8))]?).toList,
        currentSuit := none,
        turn := Player.player,
        status := Status.playing,
        winner := none } := rfl

/-- The partition performed by `initGame` is a permutation of the input
deck, whenever the deck has at least 17 cards (so that a seed card for
the discard pile exists). -/
theorem initGame_cards_perm (d : List Card) (hlen : 17 ≤ d.length) :
    List.Perm (cardsG (initGame d)) d := by
  have key : ∀ i : Nat, i < ((d.drop 8).drop 8).length →
      List.Perm
        (d.take 8 ++ (d.drop 8).take 8 ++ ((d.drop 8).drop 8).eraseIdx i ++
          (((d.drop 8).drop 8)[i]?).toList) d := by
    intro i hi
    have hx : ((d.drop 8).drop 8)[i]? = some (((d.drop 8).drop 8).get ⟨i, hi⟩) := by
      rw [List.getElem?_eq_getElem hi]
      rfl
    have herase := eraseIdx_cons_perm ((d.drop 8).drop 8) i hx
    rw [hx]
    have hco : ((((d.drop 8).drop 8).eraseIdx i : List Card) : Multiset Card) +
        (([((d.drop 8).drop 8).get ⟨i, hi⟩] : List Card) : Multiset Card) =
        (((d.drop 8).drop 8 : List Card) : Multiset Card) := by
      rw [Multiset.coe_add]
      exact Multiset.coe_eq_coe.2 herase
    have hd1 : ((d : List Card) : Multiset Card) =
        ((d.take 8 : List Card) : Multiset Card) + ((d.drop 8 : List Card) : Multiset Card) := by
      rw [Multiset.coe_add, List.take_append_drop]
    have hd2 : ((d.drop 8 : List Card) : Multiset Card) =
        (((d.drop 8).take 8 : List Card) : Multiset Card) +
          (((d.drop 8).drop 8 : List Card) : Multiset Card) := by
      rw [Multiset.coe_add, List.take_append_drop]
    rw [← Multiset.coe_eq_coe]
    simp only [← Multiset.coe_add, Option.toList_some]
    rw [hd1, hd2, ← hco]
    abel
  rw [initGame_eq]
  unfold cardsG
  by_cases h0 : (((d.drop 8).drop 8).findIdx fun c => decide (c.rank ≠ Rank.r8)) =
      ((d.drop 8).drop 8).length
  · rw [if_pos h0]
    apply key
    simp only [List.length_drop]
    omega
  · rw [if_neg h0]
    apply key
    exact Nat.lt_of_le_of_ne (List.findIdx_le_length _) h0

def initUI (d : List Card) : UIState :=
  { game := initGame d, pendingEight := none }

theorem initUI_inv (d : List Card) (hnd : (d.map Card.id).Nodup) (hlen : 17 ≤ d.length) :
    Inv (initUI d) := by
  have hperm : List.Perm (cards (initUI d)) d := initGame_cards_perm d hlen
  constructor
  · exact ((hperm.map Card.id).nodup_iff).2 hnd
  · intro hst
    exfalso
    have hst2 : Status.playing = Status.suit_selection := hst
    exact Status.noConfusion hst2

/-- C1: for every card `c`, top-of-discard `t`, and optional suit
override `s`, `canPlay (some c) t s` is true iff `c`'s rank is the wild
rank 8, or `t` is absent, or `c`'s suit equals the override (falling back
to `t`'s suit), or `c`'s rank equals `t`'s rank. -/
theorem claim_C1_canPlay_iff (c : Card) (t : Option Card) (s : Option Suit) :
    canPlay (some c) t s = true ↔
      (c.rank = Rank.r8 ∨ t = none ∨
        ∃ tc, t = some tc ∧ (c.suit = s.getD tc.suit ∨ c.rank = tc.rank)) := by
  cases t with
  | none =>
    by_cases h8 : c.rank = Rank.r8 <;> simp [canPlay, h8]
  | some tc =>
    by_cases h8 : c.rank = Rank.r8 <;> simp [canPlay, h8]

/-- C10: `canPlay` is total and returns `false` whenever the card
argument itself is absent, whatever the top card and override are. -/
theorem claim_C10_canPlay_absent (t : Option Card) (s : Option Suit) :
    canPlay none t s = false := rfl

/-- C2: starting from a started game on a 52-card deck with distinct card
identities, every sequence of valid operations keeps the four zones a
permutation of the original deck: the hand, draw-pile and discard-pile
sizes sum to 52, and no card is duplicated or lost. -/
theorem claim_C2_conservation (d : List Card) (hlen : d.length = 52)
    (hnd : (d.map Card.id).Nodup) (ops : List Op) (hv : ValidSeq (initUI d) ops) :
    List.Perm (cards (applyOps (initUI d) ops)) d ∧
      (applyOps (initUI d) ops).game.playerHand.length +
        (applyOps (initUI d) ops).game.aiHand.length +
        (applyOps (initUI d) ops).game.deck.length +
        (applyOps (initUI d) ops).game.discardPile.length = 52 ∧
      ((cards (applyOps (initUI d) ops)).map Card.id).Nodup := by
  have hlen17 : 17 ≤ d.length := by omega
  obtain ⟨hp, hi⟩ := applyOps_perm_inv ops (initUI d) (initUI_inv d hnd hlen17) hv
  have hfull : List.Perm (cards (applyOps (initUI d) ops)) d :=
    hp.trans (initGame_cards_perm d hlen17)
  refine ⟨hfull, ?_, ((hfull.map Card.id).nodup_iff).2 hnd⟩
  have hlen4 := hfull.length_eq
  have hsum : (cards (applyOps (initUI d) ops)).length =
      (applyOps (initUI d) ops).game.playerHand.length +
        (applyOps (initUI d) ops).game.aiHand.length +
        (applyOps (initUI d) ops).game.deck.length +
        (applyOps (initUI d) ops).game.discardPile.length := by
    simp [cards, List.length_append]
    omega
  omega

/-- Witness for C2: the base deck, one winner-check operation. -/
theorem claim_C2_conservation_witness :
    List.Perm (cards (applyOps (initUI baseDeck) [Op.winCheck])) baseDeck ∧
      (applyOps (initUI baseDeck) [Op.winCheck]).game.playerHand.length +
        (applyOps (initUI baseDeck) [Op.winCheck]).game.aiHand.length +
        (applyOps (initUI baseDeck) [Op.winCheck]).game.deck.length +
        (applyOps (initUI baseDeck) [Op.winCheck]).game.discardPile.length = 52 ∧
      ((cards (applyOps (initUI baseDeck) [Op.winCheck])).map Card.id).Nodup :=
  claim_C2_conservation baseDeck (by decide)
    (by
      have hmap : baseDeck.map Card.id = List.range 52 := by
        simp only [baseDeck, List.map_map]
        have hfun : (Card.id ∘ fun n =>
            ({ id := n, suit := (SUITS.drop (n / 13)).headD Suit.hearts,
               rank := (RANKS.drop (n % 13)).headD Rank.rA } : Card)) = fun n => n := rfl
        rw [hfun]
        exact List.map_id' _
      rw [hmap]
      exact List.nodup_range 52)
    [Op.winCheck] (ValidSeq.cons _ _ _ trivial (ValidSeq.nil _))

theorem drawCard_eq_empty {g : GameState} (hd : g.deck.getLast? = none) (b : Bool) :
    drawCard g b = g := by
  unfold drawCard
  rw [hd]

theorem drawCard_eq_player {g : GameState} {drawn : Card}
    (hd : g.deck.getLast? = some drawn) :
    drawCard g true =
      { g with
        deck := g.deck.dropLast,
        playerHand := g.playerHand ++ [drawn],
        turn :=
          if canPlay (some drawn) g.discardPile.getLast? g.currentSuit then Player.player
          else Player.ai } := by
  unfold drawCard
  rw [hd]
  rfl

theorem drawCard_eq_ai {g : GameState} {drawn : Card}
    (hd : g.deck.getLast? = some drawn) :
    drawCard g false =
      { g with
        deck := g.deck.dropLast,
        aiHand := g.aiHand ++ [drawn],
        turn :=
          if canPlay (some drawn) g.discardPile.getLast? g.currentSuit then Player.ai
          else Player.player } := by
  unfold drawCard
  rw [hd]
  rfl

/-- C5: `reshuffleIfNeeded` is a no-op when the draw pile has more than 2
cards or the discard pile has at most 1; otherwise it leaves exactly the
previous top discard card as the whole discard pile and the new draw pile
is a permutation of the old draw pile together with the non-top discard
cards, all other fields unchanged. -/
theorem claim_C5_reshuffle (rand : Nat → Nat) (g : GameState) :
    (2 < g.deck.length ∨ g.discardPile.length ≤ 1 → reshuffleIfNeeded rand g = g) ∧
    (g.deck.length ≤ 2 → 2 ≤ g.discardPile.length →
      ∃ t, g.discardPile.getLast? = some t ∧
        (reshuffleIfNeeded rand g).discardPile = [t] ∧
        List.Perm (reshuffleIfNeeded rand g).deck (g.deck ++ g.discardPile.dropLast) ∧
        (reshuffleIfNeeded rand g).playerHand = g.playerHand ∧
        (reshuffleIfNeeded rand g).aiHand = g.aiHand ∧
        (reshuffleIfNeeded rand g).currentSuit = g.currentSuit ∧
        (reshuffleIfNeeded rand g).turn = g.turn ∧
        (reshuffleIfNeeded rand g).status = g.status) := by
  constructor
  · intro hguard
    unfold reshuffleIfNeeded
    rw [if_pos hguard]
  · intro h1 h2
    have hne : g.discardPile ≠ [] := by
      intro hnil
      rw [hnil] at h2
      simp at h2
    obtain ⟨t, ht⟩ : ∃ t, g.discardPile.getLast? = some t :=
      ⟨g.discardPile.getLast hne, List.getLast?_eq_getLast _ hne⟩
    have hguard : ¬(2 < g.deck.length ∨ g.discardPile.length ≤ 1) := by omega
    have heq : reshuffleIfNeeded rand g =
        { g with
          deck := shuffle rand (g.deck ++ g.discardPile.dropLast),
          discardPile := g.discardPile.getLast?.toList } := by
      unfold reshuffleIfNeeded
      rw [if_neg hguard]
    rw [heq]
    refine ⟨t, ht, ?_, ?_, rfl, rfl, rfl, rfl, rfl⟩
    · show g.discardPile.getLast?.toList = [t]
      rw [ht]
      rfl
    · exact shuffle_perm rand _

/-- Witness for C5: a no-op trigger (draw pile of 4) and a real reshuffle
(draw pile of 1, discard pile of 3). -/
theorem claim_C5_reshuffle_witness :
    (reshuffleIfNeeded (fun i => i)
        { deck := [⟨0, Suit.hearts, Rank.rA⟩, ⟨1, Suit.hearts, Rank.r2⟩,
                   ⟨2, Suit.hearts, Rank.r3⟩, ⟨3, Suit.hearts, Rank.r4⟩],
          playerHand := [], aiHand := [],
          discardPile := [⟨4, Suit.hearts, Rank.r5⟩, ⟨5, Suit.hearts, Rank.r6⟩],
          currentSuit := none, turn := Player.player, status := Status.playing,
          winner := none } =
      { deck := [⟨0, Suit.hearts, Rank.rA⟩, ⟨1, Suit.hearts, Rank.r2⟩,
                 ⟨2, Suit.hearts, Rank.r3⟩, ⟨3, Suit.hearts, Rank.r4⟩],
        playerHand := [], aiHand := [],
        discardPile := [⟨4, Suit.hearts, Rank.r5⟩, ⟨5, Suit.hearts, Rank.r6⟩],
        currentSuit := none, turn := Player.player, status := Status.playing,
        winner := none }) ∧
    (∃ t,
      ({ deck := [⟨0, Suit.hearts, Rank.rA⟩], playerHand := [], aiHand := [],
         discardPile := [⟨1, Suit.hearts, Rank.r2⟩, ⟨2, Suit.hearts, Rank.r3⟩,
                         ⟨3, Suit.hearts, Rank.r4⟩],
         currentSuit := none, turn := Player.player, status := Status.playing,
         winner := none } : GameState).discardPile.getLast? = some t ∧
      (reshuffleIfNeeded (fun i => i)
        { deck := [⟨0, Suit.hearts, Rank.rA⟩], playerHand := [], aiHand := [],
          discardPile := [⟨1, Suit.hearts, Rank.r2⟩, ⟨2, Suit.hearts, Rank.r3⟩,
                          ⟨3, Suit.hearts, Rank.r4⟩],
          currentSuit := none, turn := Player.player, status := Status.playing,
          winner := none }).discardPile = [t] ∧
      List.Perm
        (reshuffleIfNeeded (fun i => i)
          { deck := [⟨0, Suit.hearts, Rank.rA⟩], playerHand := [], aiHand := [],
            discardPile := [⟨1, Suit.hearts, Rank.r2⟩, ⟨2, Suit.hearts, Rank.r3⟩,
                            ⟨3, Suit.hearts, Rank.r4⟩],
            currentSuit := none, turn := Player.player, status := Status.playing,
            winner := none }).deck
        (({ deck := [⟨0, Suit.hearts, Rank.rA⟩], playerHand := [], aiHand := [],
            discardPile := [⟨1, Suit.hearts, Rank.r2⟩, ⟨2, Suit.hearts, Rank.r3⟩,
                            ⟨3, Suit.hearts, Rank.r4⟩],
            currentSuit := none, turn := Player.player, status := Status.playing,
            winner := none } : GameState).deck ++
          ({ deck := [⟨0, Suit.hearts, Rank.rA⟩], playerHand := [], aiHand := [],
             discardPile := [⟨1, Suit.hearts, Rank.r2⟩, ⟨2, Suit.hearts, Rank.r3⟩,
                             ⟨3, Suit.hearts, Rank.r4⟩],
             currentSuit := none, turn := Player.player, status := Status.playing,
             winner := none } : GameState).discardPile.dropLast) ∧
      (reshuffleIfNeeded (fun i => i)
        { deck := [⟨0, Suit.hearts, Rank.rA⟩], playerHand := [], aiHand := [],
          discardPile := [⟨1, Suit.hearts, Rank.r2⟩, ⟨2, Suit.hearts, Rank.r3⟩,
                          ⟨3, Suit.hearts, Rank.r4⟩],
          currentSuit := none, turn := Player.player, status := Status.playing,
          winner := none }).playerHand = [] ∧
      (reshuffleIfNeeded (fun i => i)
        { deck := [⟨0, Suit.hearts, Rank.rA⟩], playerHand := [], aiHand := [],
          discardPile := [⟨1, Suit.hearts, Rank.r2⟩, ⟨2, Suit.hearts, Rank.r3⟩,
                          ⟨3, Suit.hearts, Rank.r4⟩],
          currentSuit := none, turn := Player.player, status := Status.playing,
          winner := none }).aiHand = [] ∧
      (reshuffleIfNeeded (fun i => i)
        { deck := [⟨0, Suit.hearts, Rank.rA⟩], playerHand := [], aiHand := [],
          discardPile := [⟨1, Suit.hearts, Rank.r2⟩, ⟨2, Suit.hearts, Rank.r3⟩,
                          ⟨3, Suit.hearts, Rank.r4⟩],
          currentSuit := none, turn := Player.player, status := Status.playing,
          winner := none }).currentSuit = none ∧
      (reshuffleIfNeeded (fun i => i)
        { deck := [⟨0, Suit.hearts, Rank.rA⟩], playerHand := [], aiHand := [],
          discardPile := [⟨1, Suit.hearts, Rank.r2⟩, ⟨2, Suit.hearts, Rank.r3⟩,
                          ⟨3, Suit.hearts, Rank.r4⟩],
          currentSuit := none, turn := Player.player, status := Status.playing,
          winner := none }).turn = Player.player ∧
      (reshuffleIfNeeded (fun i => i)
        { deck := [⟨0, Suit.hearts, Rank.rA⟩], playerHand := [], aiHand := [],
          discardPile := [⟨1, Suit.hearts, Rank.r2⟩, ⟨2, Suit.hearts, Rank.r3⟩,
                          ⟨3, Suit.hearts, Rank.r4⟩],
          currentSuit := none, turn := Player.player, status := Status.playing,
          winner := none }).status = Status.playing) :=
  ⟨(claim_C5_reshuffle (fun i => i) _).1 (by decide),
   (claim_C5_reshuffle (fun i => i) _).2 (by decide) (by decide)⟩

/-- C8: for every successful draw by the turn owner (human `drawCard`
and the AI draw branch alike), the drawn card is the tail card of the
draw pile and is appended to the drawing player's hand, and the turn
owner is unchanged iff the drawn card is playable against the current
top of discard and suit override. -/
theorem claim_C8_draw :
    (∀ (g : GameState) (isPlayer : Bool) (drawn : Card),
      g.deck.getLast? = some drawn →
      g.turn = (if isPlayer then Player.player else Player.ai) →
      (drawCard g isPlayer).deck = g.deck.dropLast ∧
      (if isPlayer then
          (drawCard g isPlayer).playerHand = g.playerHand ++ [drawn] ∧
          (drawCard g isPlayer).aiHand = g.aiHand
        else
          (drawCard g isPlayer).aiHand = g.aiHand ++ [drawn] ∧
          (drawCard g isPlayer).playerHand = g.playerHand) ∧
      ((drawCard g isPlayer).turn = g.turn ↔
        canPlay (some drawn) g.discardPile.getLast? g.currentSuit = true) ∧
      (drawCard g isPlayer).discardPile = g.discardPile ∧
      (drawCard g isPlayer).currentSuit = g.currentSuit ∧
      (drawCard g isPlayer).status = g.status) ∧
    (∀ (g : GameState) (topCard drawn : Card),
      g.turn = Player.ai →
      g.discardPile.getLast? = some topCard →
      (g.aiHand.filter fun c => canPlay (some c) (some topCard) g.currentSuit) = [] →
      g.deck.getLast? = some drawn →
      (aiStepInner g).deck = g.deck.dropLast ∧
      (aiStepInner g).aiHand = g.aiHand ++ [drawn] ∧
      (aiStepInner g).playerHand = g.playerHand ∧
      ((aiStepInner g).turn = g.turn ↔
        canPlay (some drawn) (some topCard) g.currentSuit = true) ∧
      (aiStepInner g).discardPile = g.discardPile ∧
      (aiStepInner g).currentSuit = g.currentSuit ∧
      (aiStepInner g).status = g.status) := by
  constructor
  · intro g isPlayer drawn hd hown
    cases isPlayer with
    | true =>
      rw [drawCard_eq_player hd]
      have hown2 : g.turn = Player.player := hown
      cases hc : canPlay (some drawn) g.discardPile.getLast? g.currentSuit with
      | true => simp [hown2, hc]
      | false => simp [hown2, hc]
    | false =>
      rw [drawCard_eq_ai hd]
      have hown2 : g.turn = Player.ai := hown
      cases hc : canPlay (some drawn) g.discardPile.getLast? g.currentSuit with
      | true => simp [hown2, hc]
      | false => simp [hown2, hc]
  · intro g topCard drawn hturn htop hp hd
    rw [aiStepInner_eq_draw htop hp hd]
    cases hc : canPlay (some drawn) (some topCard) g.currentSuit with
    | true => simp [hturn, hc]
    | false => simp [hturn, hc]

def c8HumanState : GameState :=
  { deck := [⟨0, Suit.hearts, Rank.rA⟩, ⟨1, Suit.clubs, Rank.r7⟩],
    playerHand := [⟨2, Suit.spades, Rank.r2⟩], aiHand := [⟨3, Suit.spades, Rank.r3⟩],
    discardPile := [⟨4, Suit.clubs, Rank.rK⟩], currentSuit := none,
    turn := Player.player, status := Status.playing, winner := none }

def c8AiState : GameState :=
  { deck := [⟨0, Suit.hearts, Rank.rA⟩],
    playerHand := [⟨2, Suit.spades, Rank.r2⟩], aiHand := [⟨3, Suit.spades, Rank.r3⟩],
    discardPile := [⟨4, Suit.clubs, Rank.rK⟩], currentSuit := none,
    turn := Player.ai, status := Status.playing, winner := none }

/-- Witness for C8: a human draw of a playable tail card, and an AI
forced draw of an unplayable card. -/
theorem claim_C8_draw_witness :
    ((drawCard c8HumanState true).deck = c8HumanState.deck.dropLast ∧
      (if true then
          (drawCard c8HumanState true).playerHand =
            c8HumanState.playerHand ++ [⟨1, Suit.clubs, Rank.r7⟩] ∧
          (drawCard c8HumanState true).aiHand = c8HumanState.aiHand
        else
          (drawCard c8HumanState true).aiHand =
            c8HumanState.aiHand ++ [⟨1, Suit.clubs, Rank.r7⟩] ∧
          (drawCard c8HumanState true).playerHand = c8HumanState.playerHand) ∧
      ((drawCard c8HumanState true).turn = c8HumanState.turn ↔
        canPlay (some ⟨1, Suit.clubs, Rank.r7⟩) c8HumanState.discardPile.getLast?
          c8HumanState.currentSuit = true) ∧
      (drawCard c8HumanState true).discardPile = c8HumanState.discardPile ∧
      (drawCard c8HumanState true).currentSuit = c8HumanState.currentSuit ∧
      (drawCard c8HumanState true).status = c8HumanState.status) ∧
    ((aiStepInner c8AiState).deck = c8AiState.deck.dropLast ∧
      (aiStepInner c8AiState).aiHand = c8AiState.aiHand ++ [⟨0, Suit.hearts, Rank.rA⟩] ∧
      (aiStepInner c8AiState).playerHand = c8AiState.playerHand ∧
      ((aiStepInner c8AiState).turn = c8AiState.turn ↔
        canPlay (some ⟨0, Suit.hearts, Rank.rA⟩) (some ⟨4, Suit.clubs, Rank.rK⟩)
          c8AiState.currentSuit = true) ∧
      (aiStepInner c8AiState).discardPile = c8AiState.discardPile ∧
      (aiStepInner c8AiState).currentSuit = c8AiState.currentSuit ∧
      (aiStepInner c8AiState).status = c8AiState.status) :=
  ⟨claim_C8_draw.1 c8HumanState true ⟨1, Suit.clubs, Rank.r7⟩ (by decide) (by decide),
   claim_C8_draw.2 c8AiState ⟨4, Suit.clubs, Rank.rK⟩ ⟨0, Suit.hearts, Rank.rA⟩
     (by decide) (by decide) (by decide) (by decide)⟩

/-- C9: while the phase is playing, an empty human hand finishes the game
with the human as winner (checked first), an empty AI hand with the AI as
winner; and once the phase is `game_over` every operation (play, draw,
suit choice, AI turn, winner check) leaves the state unchanged. -/
theorem claim_C9_win :
    (∀ g : GameState, g.status = Status.playing → g.playerHand = [] →
      checkWinner g = { g with status := Status.game_over, winner := some Player.player }) ∧
    (∀ g : GameState, g.status = Status.playing → g.playerHand ≠ [] → g.aiHand = [] →
      checkWinner g = { g with status := Status.game_over, winner := some Player.ai }) ∧
    (∀ (s : UIState) (op : Op), s.game.status = Status.game_over → applyOp s op = s) := by
  refine ⟨?_, ?_, ?_⟩
  · intro g hpl hpe
    unfold checkWinner
    rw [if_pos hpl, if_pos (by rw [List.isEmpty_iff]; exact hpe)]
  · intro g hpl hpne hae
    unfold checkWinner
    rw [if_pos hpl, if_neg (by rw [List.isEmpty_iff]; exact hpne),
      if_pos (by rw [List.isEmpty_iff]; exact hae)]
  · intro s op hgo
    have hnp : ¬s.game.status = Status.playing := by
      rw [hgo]
      intro hc
      exact Status.noConfusion hc
    have hnsel : ¬s.game.status = Status.suit_selection := by
      rw [hgo]
      intro hc
      exact Status.noConfusion hc
    cases op with
    | play card =>
      rw [applyOp_play, handlePlayerPlay_eq_guardFail (by intro hc; exact hnp hc.2)]
    | draw rand =>
      rw [applyOp_draw]
      unfold playerDraw
      rw [if_neg (by intro hc; exact hnp hc.2)]
    | suitSelect suit =>
      rw [applyOp_suitSelect, handleSuitSelect_eq_wrongPhase hnsel]
    | ai rand =>
      rw [applyOp_ai]
      unfold aiTurn
      rw [if_neg (by intro hc; exact hnp hc.1)]
    | winCheck =>
      rw [applyOp_winCheck]
      unfold checkWinner
      rw [if_neg hnp]

/-- Witness for C9: a human win, an AI win, and a rejected play after the
game is over. -/
theorem claim_C9_win_witness :
    checkWinner
        { deck := [], playerHand := [], aiHand := [⟨0, Suit.hearts, Rank.rA⟩],
          discardPile := [⟨1, Suit.clubs, Rank.r2⟩], currentSuit := none,
          turn := Player.player, status := Status.playing, winner := none } =
      { deck := [], playerHand := [], aiHand := [⟨0, Suit.hearts, Rank.rA⟩],
        discardPile := [⟨1, Suit.clubs, Rank.r2⟩], currentSuit := none,
        turn := Player.player, status := Status.game_over, winner := some Player.player } ∧
    checkWinner
        { deck := [], playerHand := [⟨0, Suit.hearts, Rank.rA⟩], aiHand := [],
          discardPile := [⟨1, Suit.clubs, Rank.r2⟩], currentSuit := none,
          turn := Player.player, status := Status.playing, winner := none } =
      { deck := [], playerHand := [⟨0, Suit.hearts, Rank.rA⟩], aiHand := [],
        discardPile := [⟨1, Suit.clubs, Rank.r2⟩], currentSuit := none,
        turn := Player.player, status := Status.game_over, winner := some Player.ai } ∧
    applyOp
        { game :=
            { deck := [], playerHand := [⟨0, Suit.hearts, Rank.rA⟩], aiHand := [],
              discardPile := [⟨1, Suit.clubs, Rank.r2⟩], currentSuit := none,
              turn := Player.player, status := Status.game_over,
              winner := some Player.ai },
          pendingEight := none }
        (Op.play ⟨0, Suit.hearts, Rank.rA⟩) =
      { game :=
          { deck := [], playerHand := [⟨0, Suit.hearts, Rank.rA⟩], aiHand := [],
            discardPile := [⟨1, Suit.clubs, Rank.r2⟩], currentSuit := none,
            turn := Player.player, status := Status.game_over,
            winner := some Player.ai },
        pendingEight := none } :=
  ⟨claim_C9_win.1 _ (by decide) (by decide),
   claim_C9_win.2.1 _ (by decide) (by decide) (by decide),
   claim_C9_win.2.2 _ _ (by decide)⟩

theorem reshuffleIfNeeded_turn (rand : Nat → Nat) (g : GameState) :
    (reshuffleIfNeeded rand g).turn = g.turn := by
  unfold reshuffleIfNeeded
  split <;> rfl

theorem find?_eq_getElem?_findIdx (p : Card → Bool) (l : List Card) :
    l.find? p = l[l.findIdx p]? := by
  induction l with
  | nil => rfl
  | cons a t ih =>
    by_cases hpa : p a = true
    · simp [List.find?_cons_of_pos _ hpa, List.findIdx_cons, hpa]
    · have hpa2 : p a = false := by
        rwa [Bool.not_eq_true] at hpa
      have hstep : List.find? p (a :: t) = List.find? p t := List.find?_cons_of_neg t hpa
      rw [hstep, ih, List.findIdx_cons, hpa2]
      simp

theorem getElem?_zero_toList_take_one (l : List Card) : (l[0]?).toList = l.take 1 := by
  cases l <;> simp

/-- C6: `start` deals 8 cards to each player from the front of the
shuffled 52-card deck, seeds the discard pile with the first remaining
non-wild card (falling back to the first remaining card when all are
wild), puts the other remaining cards in the draw pile, and sets turn to
the human, phase to playing, and no suit override. -/
theorem claim_C6_start (rand : Nat → Nat) :
    (createDeck rand).length = 52 ∧
    (initGame (createDeck rand)).playerHand = (createDeck rand).take 8 ∧
    (initGame (createDeck rand)).playerHand.length = 8 ∧
    (initGame (createDeck rand)).aiHand = ((createDeck rand).drop 8).take 8 ∧
    (initGame (createDeck rand)).aiHand.length = 8 ∧
    (∀ c : Card,
      ((((createDeck rand).drop 8).drop 8).find? fun x => decide (x.rank ≠ Rank.r8)) = some c →
      (initGame (createDeck rand)).discardPile = [c]) ∧
    (((((createDeck rand).drop 8).drop 8).find? fun x => decide (x.rank ≠ Rank.r8)) = none →
      (initGame (createDeck rand)).discardPile = (((createDeck rand).drop 8).drop 8).take 1) ∧
    List.Perm
      ((initGame (createDeck rand)).discardPile ++ (initGame (createDeck rand)).deck)
      (((createDeck rand).drop 8).drop 8) ∧
    (initGame (createDeck rand)).turn = Player.player ∧
    (initGame (createDeck rand)).status = Status.playing ∧
    (initGame (createDeck rand)).currentSuit = none := by
  have hlen : (createDeck rand).length = 52 := by
    show (shuffle rand baseDeck).length = 52
    rw [(shuffle_perm rand baseDeck).length_eq]
    simp [baseDeck]
  have hlen2 : (((createDeck rand).drop 8).drop 8).length = 36 := by
    simp only [List.length_drop, hlen]
  refine ⟨hlen, by rw [initGame_eq], ?_, by rw [initGame_eq], ?_, ?_, ?_, ?_,
    by rw [initGame_eq], by rw [initGame_eq], by rw [initGame_eq]⟩
  · rw [initGame_eq]
    simp [List.length_take, hlen]
  · rw [initGame_eq]
    simp [List.length_take, List.length_drop, hlen]
  · intro c hfind
    rw [find?_eq_getElem?_findIdx] at hfind
    have hidxlt :
        (((createDeck rand).drop 8).drop 8).findIdx (fun x => decide (x.rank ≠ Rank.r8)) <
          (((createDeck rand).drop 8).drop 8).length := by
      by_contra hge
      rw [List.getElem?_eq_none (Nat.le_of_not_lt hge)] at hfind
      exact Option.noConfusion hfind
    have hne :
        ¬(((createDeck rand).drop 8).drop 8).findIdx (fun x => decide (x.rank ≠ Rank.r8)) =
          (((createDeck rand).drop 8).drop 8).length := by
      omega
    rw [initGame_eq]
    dsimp only
    rw [if_neg hne, hfind]
    rfl
  · intro hnone
    rw [find?_eq_getElem?_findIdx] at hnone
    have hle := @List.findIdx_le_length Card (fun x => decide (x.rank ≠ Rank.r8))
      (((createDeck rand).drop 8).drop 8)
    have heq :
        (((createDeck rand).drop 8).drop 8).findIdx (fun x => decide (x.rank ≠ Rank.r8)) =
          (((createDeck rand).drop 8).drop 8).length := by
      by_contra hne
      have hlt : (((createDeck rand).drop 8).drop 8).findIdx
          (fun x => decide (x.rank ≠ Rank.r8)) <
          (((createDeck rand).drop 8).drop 8).length := by omega
      rw [List.getElem?_eq_getElem hlt] at hnone
      exact Option.noConfusion hnone
    rw [initGame_eq]
    dsimp only
    rw [if_pos heq]
    exact getElem?_zero_toList_take_one _
  · rw [initGame_eq]
    dsimp only
    have hkey : ∀ i : Nat, i < (((createDeck rand).drop 8).drop 8).length →
        List.Perm
          (((((createDeck rand).drop 8).drop 8)[i]?).toList ++
            (((createDeck rand).drop 8).drop 8).eraseIdx i)
          (((createDeck rand).drop 8).drop 8) := by
      intro i hi
      rw [List.getElem?_eq_getElem hi]
      have h1 := eraseIdx_cons_perm (((createDeck rand).drop 8).drop 8) i
        (List.getElem?_eq_getElem hi)
      have h2 : List.Perm
          ([(((createDeck rand).drop 8).drop 8)[i]] ++
            (((createDeck rand).drop 8).drop 8).eraseIdx i)
          ((((createDeck rand).drop 8).drop 8).eraseIdx i ++
            [(((createDeck rand).drop 8).drop 8)[i]]) :=
        List.perm_append_comm
      exact h2.trans h1
    by_cases h0 : (((createDeck rand).drop 8).drop 8).findIdx
        (fun x => decide (x.rank ≠ Rank.r8)) = (((createDeck rand).drop 8).drop 8).length
    · rw [if_pos h0]
      exact hkey 0 (by omega)
    · rw [if_neg h0]
      exact hkey _ (Nat.lt_of_le_of_ne (List.findIdx_le_length _) h0)

/-- Witness for C6: with the identity tape the shuffle is trivial, the
seed scan finds the non-wild card with id 16 (4 of diamonds). -/
theorem claim_C6_start_witness :
    ((((createDeck (fun i => i)).drop 8).drop 8).find? fun x => decide (x.rank ≠ Rank.r8)) =
      some ⟨16, Suit.diamonds, Rank.r4⟩ ∧
    (initGame (createDeck (fun i => i))).discardPile = [⟨16, Suit.diamonds, Rank.r4⟩] ∧
    (initGame (createDeck (fun i => i))).playerHand.length = 8 ∧
    (initGame (createDeck (fun i => i))).status = Status.playing :=
  ⟨by set_option maxRecDepth 100000 in decide,
   (claim_C6_start (fun i => i)).2.2.2.2.2.1 ⟨16, Suit.diamonds, Rank.r4⟩
     (by set_option maxRecDepth 100000 in decide),
   (claim_C6_start (fun i => i)).2.2.1,
   (claim_C6_start (fun i => i)).2.2.2.2.2.2.2.2.2.1⟩

def c3State : UIState :=
  { game :=
      { deck := [⟨3, Suit.diamonds, Rank.r2⟩],
        playerHand := [⟨0, Suit.hearts, Rank.r8⟩, ⟨4, Suit.hearts, Rank.r9⟩],
        aiHand := [⟨1, Suit.spades, Rank.rA⟩],
        discardPile := [⟨2, Suit.clubs, Rank.r5⟩],
        currentSuit := some Suit.spades,
        turn := Player.player, status := Status.playing, winner := none },
    pendingEight := none }

/-- C3 counterexample: the human plays a legal wild 8 and the phase does
move to the suit choice, but the 8 is still in the hand, the discard
pile is untouched, and a pre-existing suit override is not cleared —
contradicting the claim that the play operation itself removes the card,
appends it, and clears the override. -/
theorem claim_C3_counterexample :
    (handlePlayerPlay ⟨0, Suit.hearts, Rank.r8⟩ c3State).game.status =
      Status.suit_selection ∧
    (⟨0, Suit.hearts, Rank.r8⟩ : Card) ∈
      (handlePlayerPlay ⟨0, Suit.hearts, Rank.r8⟩ c3State).game.playerHand ∧
    (handlePlayerPlay ⟨0, Suit.hearts, Rank.r8⟩ c3State).game.discardPile =
      [⟨2, Suit.clubs, Rank.r5⟩] ∧
    (handlePlayerPlay ⟨0, Suit.hearts, Rank.r8⟩ c3State).game.currentSuit =
      some Suit.spades := by
  decide

/-- C3 (amended): when the human plays a legal wild 8, the operation only
records the card as pending and moves the phase to the suit choice —
hand, discard pile, override and turn owner are unchanged; the removal,
the discard append, the setting of the override, and the turn flip all
happen together when the suit choice is resolved. -/
theorem claim_C3_amended (s : UIState) (card : Card) (topCard : Card)
    (h1 : s.game.turn = Player.player) (h2 : s.game.status = Status.playing)
    (htop : s.game.discardPile.getLast? = some topCard)
    (hlegal : canPlay (some card) (some topCard) s.game.currentSuit = true)
    (h8 : card.rank = Rank.r8) :
    handlePlayerPlay card s =
      { s with
        pendingEight := some card,
        game := { s.game with status := Status.suit_selection } } ∧
    ∀ suit : Suit,
      handleSuitSelect suit (handlePlayerPlay card s) =
        { pendingEight := none,
          game := { s.game with
            playerHand := s.game.playerHand.filter fun c => decide (c.id ≠ card.id),
            discardPile := s.game.discardPile ++ [card],
            currentSuit := some suit,
            turn := Player.ai,
            status := Status.playing } } := by
  have he := handlePlayerPlay_eq_wild h1 h2 htop hlegal h8
  refine ⟨he, ?_⟩
  intro suit
  rw [he, handleSuitSelect_eq_some rfl rfl]
  rfl

/-- Witness for C3 (amended): the human holds the 8 of hearts over a 5 of
clubs with a spades override. -/
theorem claim_C3_amended_witness :
    handlePlayerPlay ⟨0, Suit.hearts, Rank.r8⟩ c3State =
      { c3State with
        pendingEight := some ⟨0, Suit.hearts, Rank.r8⟩,
        game := { c3State.game with status := Status.suit_selection } } ∧
    ∀ suit : Suit,
      handleSuitSelect suit (handlePlayerPlay ⟨0, Suit.hearts, Rank.r8⟩ c3State) =
        { pendingEight := none,
          game := { c3State.game with
            playerHand := c3State.game.playerHand.filter
              fun c => decide (c.id ≠ (⟨0, Suit.hearts, Rank.r8⟩ : Card).id),
            discardPile := c3State.game.discardPile ++ [⟨0, Suit.hearts, Rank.r8⟩],
            currentSuit := some suit,
            turn := Player.ai,
            status := Status.playing } } :=
  claim_C3_amended c3State ⟨0, Suit.hearts, Rank.r8⟩ ⟨2, Suit.clubs, Rank.r5⟩
    (by decide) (by decide) (by decide) (by decide) (by decide)

def c4State : GameState :=
  { deck := [], playerHand := [⟨0, Suit.hearts, Rank.r4⟩], aiHand := [⟨2, Suit.hearts, Rank.r3⟩],
    discardPile := [⟨1, Suit.clubs, Rank.rK⟩], currentSuit := none,
    turn := Player.player, status := Status.playing, winner := none }

def c4AiState : GameState :=
  { deck := [], playerHand := [⟨0, Suit.hearts, Rank.r4⟩], aiHand := [⟨2, Suit.hearts, Rank.r3⟩],
    discardPile := [⟨1, Suit.clubs, Rank.rK⟩], currentSuit := none,
    turn := Player.ai, status := Status.playing, winner := none }

/-- C4 counterexample: the human attempts to draw from an empty pile (a
position where even a reshuffle could not refill it); the state is
entirely unchanged — in particular the turn does NOT pass to the other
player, contradicting the claimed forced pass for every player. -/
theorem claim_C4_counterexample :
    c4State.deck = [] ∧
    playerDraw (fun i => i) c4State = c4State ∧
    (playerDraw (fun i => i) c4State).turn = Player.player ∧
    Player.player ≠ Player.ai := by
  decide

/-- C4 (amended): with an empty draw pile the draw step is a pure no-op
for either player; for the human the guarded draw intent leaves the turn
owner unchanged (no forced pass), with the automatic reshuffle attempt
happening after the rejected draw; only the AI, when it must draw and
the pile is empty, passes the turn to the human without drawing. -/
theorem claim_C4_amended (rand : Nat → Nat) (g : GameState) (hd : g.deck = []) :
    (drawCard g true = g ∧ drawCard g false = g) ∧
    (g.turn = Player.player → g.status = Status.playing →
      playerDraw rand g = reshuffleIfNeeded rand g ∧
      (playerDraw rand g).turn = g.turn) ∧
    (g.status = Status.playing → g.turn = Player.ai →
      ∀ topCard, g.discardPile.getLast? = some topCard →
      (g.aiHand.filter fun c => canPlay (some c) (some topCard) g.currentSuit) = [] →
      aiTurn rand g = reshuffleIfNeeded rand { g with turn := Player.player } ∧
      (aiTurn rand g).turn = Player.player) := by
  have hgl : g.deck.getLast? = none := by
    rw [hd]
    rfl
  refine ⟨⟨drawCard_eq_empty hgl true, drawCard_eq_empty hgl false⟩, ?_, ?_⟩
  · intro ht hs
    have h1 : playerDraw rand g = reshuffleIfNeeded rand g := by
      unfold playerDraw
      rw [if_pos ⟨ht, hs⟩, drawCard_eq_empty hgl]
    refine ⟨h1, ?_⟩
    rw [h1, reshuffleIfNeeded_turn]
  · intro hs ht topCard htop hfil
    have h1 : aiTurn rand g = reshuffleIfNeeded rand { g with turn := Player.player } := by
      unfold aiTurn
      rw [if_pos ⟨hs, ht⟩, aiStepInner_eq_deckEmpty htop hfil hgl]
    refine ⟨h1, ?_⟩
    rw [h1, reshuffleIfNeeded_turn]

/-- Witness for C4 (amended): both the human no-op rejection and the AI
forced pass, on empty-deck states. -/
theorem claim_C4_amended_witness :
    (drawCard c4State true = c4State ∧ drawCard c4State false = c4State) ∧
    (playerDraw (fun i => i) c4State = reshuffleIfNeeded (fun i => i) c4State ∧
      (playerDraw (fun i => i) c4State).turn = c4State.turn) ∧
    (aiTurn (fun i => i) c4AiState =
        reshuffleIfNeeded (fun i => i) { c4AiState with turn := Player.player } ∧
      (aiTurn (fun i => i) c4AiState).turn = Player.player) :=
  ⟨(claim_C4_amended (fun i => i) c4State (by decide)).1,
   (claim_C4_amended (fun i => i) c4State (by decide)).2.1 (by decide) (by decide),
   (claim_C4_amended (fun i => i) c4AiState (by decide)).2.2 (by decide) (by decide)
     ⟨1, Suit.clubs, Rank.rK⟩ (by decide) (by decide)⟩

/-- Index of a suit in the fixed enumeration order (the order of `SUITS`
and of the `suitCounts` record keys). -/
def suitIdx : Suit → Nat
  | Suit.hearts => 0
  | Suit.diamonds => 1
  | Suit.clubs => 2
  | Suit.spades => 3

def c7State : GameState :=
  { deck := [⟨4, Suit.hearts, Rank.r2⟩],
    playerHand := [⟨5, Suit.hearts, Rank.r4⟩],
    aiHand := [⟨0, Suit.clubs, Rank.r8⟩, ⟨1, Suit.hearts, Rank.rA⟩,
               ⟨2, Suit.diamonds, Rank.rA⟩],
    discardPile := [⟨3, Suit.spades, Rank.rK⟩], currentSuit := none,
    turn := Player.ai, status := Status.playing, winner := none }

/-- C7 counterexample: the AI must play its 8 of clubs; hearts and
diamonds are tied as most frequent among its remaining cards and hearts
comes first in the suit enumeration, yet the policy nominates diamonds —
the tie is broken toward the later suit, not by the enumeration order. -/
theorem claim_C7_counterexample :
    (aiStepInner c7State).currentSuit = some Suit.diamonds ∧
    suitCountExcl c7State.aiHand 0 Suit.hearts =
      suitCountExcl c7State.aiHand 0 Suit.diamonds ∧
    (∀ x : Suit, suitCountExcl c7State.aiHand 0 x ≤
      suitCountExcl c7State.aiHand 0 Suit.hearts) ∧
    suitIdx Suit.hearts < suitIdx Suit.diamonds ∧
    ¬(aiStepInner c7State).currentSuit = some Suit.hearts := by
  decide

/-- C7 (amended): given hand, top discard, and override the opponent
policy is the deterministic function embedded in `aiStepInner`: it
filters the hand with the same `canPlay` predicate used for human moves,
plays the first non-wild legal candidate in hand order, falls back to
the first legal (wild) candidate only when no non-wild one exists, and a
wild play nominates a suit of maximal count among the rest of its hand —
ties broken toward the suit occurring LATEST in the fixed enumeration
order (hearts, diamonds, clubs, spades). -/
theorem claim_C7_amended :
    (∀ (g : GameState) (topCard c : Card),
      g.discardPile.getLast? = some topCard →
      ((g.aiHand.filter fun x => canPlay (some x) (some topCard) g.currentSuit).find?
        fun x => decide (x.rank ≠ Rank.r8)) = some c →
      c.rank ≠ Rank.r8 ∧
      aiStepInner g =
        { g with
          aiHand := g.aiHand.filter fun x => decide (x.id ≠ c.id),
          discardPile := g.discardPile ++ [c],
          currentSuit := none,
          turn := Player.player }) ∧
    (∀ (g : GameState) (topCard first : Card) (rest : List Card),
      g.discardPile.getLast? = some topCard →
      (g.aiHand.filter fun x => canPlay (some x) (some topCard) g.currentSuit) =
        first :: rest →
      (((first :: rest).find? fun x => decide (x.rank ≠ Rank.r8)) = none) →
      first.rank = Rank.r8 ∧
      aiStepInner g =
        { g with
          aiHand := g.aiHand.filter fun x => decide (x.id ≠ first.id),
          discardPile := g.discardPile ++ [first],
          currentSuit := some (bestSuitOf (suitCountExcl g.aiHand first.id)),
          turn := Player.player }) ∧
    (∀ counts : Suit → Nat,
      (∀ x : Suit, counts x ≤ counts (bestSuitOf counts)) ∧
      (∀ x : Suit, suitIdx (bestSuitOf counts) < suitIdx x →
        counts x < counts (bestSuitOf counts))) := by
  refine ⟨?_, ?_, ?_⟩
  · intro g topCard c htop hfind
    have hpc : c.rank ≠ Rank.r8 := by
      have := List.find?_some hfind
      simpa using this
    cases hp : (g.aiHand.filter fun x => canPlay (some x) (some topCard) g.currentSuit) with
    | nil =>
      rw [hp] at hfind
      exact absurd hfind (by simp)
    | cons first rest =>
      rw [hp] at hfind
      have hcp : (((first :: rest).find? fun x => decide (x.rank ≠ Rank.r8)).getD first) =
          c := by
        rw [hfind]
        rfl
      refine ⟨hpc, ?_⟩
      rw [aiStepInner_eq_play htop hp hcp, if_neg hpc]
  · intro g topCard first rest htop hp hfindnone
    have h8 : first.rank = Rank.r8 := by
      have := List.find?_eq_none.1 hfindnone first (List.mem_cons_self first rest)
      simpa using this
    have hcp : (((first :: rest).find? fun x => decide (x.rank ≠ Rank.r8)).getD first) =
        first := by
      rw [hfindnone]
      rfl
    refine ⟨h8, ?_⟩
    rw [aiStepInner_eq_play htop hp hcp, if_pos h8]
  · intro counts
    constructor
    · intro x
      cases x <;>
        simp only [bestSuitOf, List.foldl_cons, List.foldl_nil] <;>
        split_ifs <;> omega
    · intro x
      cases x <;>
        simp only [bestSuitOf, List.foldl_cons, List.foldl_nil] <;>
        split_ifs <;> simp [suitIdx] <;> omega

def c7bState : GameState :=
  { deck := [⟨4, Suit.hearts, Rank.r2⟩],
    playerHand := [⟨5, Suit.hearts, Rank.r4⟩],
    aiHand := [⟨0, Suit.hearts, Rank.r8⟩, ⟨1, Suit.spades, Rank.r5⟩],
    discardPile := [⟨2, Suit.spades, Rank.rK⟩], currentSuit := none,
    turn := Player.ai, status := Status.playing, winner := none }

/-- Witness for C7 (amended): a non-wild preference (5 of spades over the
8 of hearts) and the wild-play nomination on the tied counterexample
hand. -/
theorem claim_C7_amended_witness :
    ((⟨1, Suit.spades, Rank.r5⟩ : Card).rank ≠ Rank.r8 ∧
      aiStepInner c7bState =
        { c7bState with
          aiHand := c7bState.aiHand.filter
            fun x => decide (x.id ≠ (⟨1, Suit.spades, Rank.r5⟩ : Card).id),
          discardPile := c7bState.discardPile ++ [⟨1, Suit.spades, Rank.r5⟩],
          currentSuit := none,
          turn := Player.player }) ∧
    ((⟨0, Suit.clubs, Rank.r8⟩ : Card).rank = Rank.r8 ∧
      aiStepInner c7State =
        { c7State with
          aiHand := c7State.aiHand.filter
            fun x => decide (x.id ≠ (⟨0, Suit.clubs, Rank.r8⟩ : Card).id),
          discardPile := c7State.discardPile ++ [⟨0, Suit.clubs, Rank.r8⟩],
          currentSuit := some (bestSuitOf (suitCountExcl c7State.aiHand
            (⟨0, Suit.clubs, Rank.r8⟩ : Card).id)),
          turn := Player.player }) ∧
    (∀ x : Suit,
      suitCountExcl c7State.aiHand 0 x ≤
        suitCountExcl c7State.aiHand 0 (bestSuitOf (suitCountExcl c7State.aiHand 0))) :=
  ⟨claim_C7_amended.1 c7bState ⟨2, Suit.spades, Rank.rK⟩ ⟨1, Suit.spades, Rank.r5⟩
     (by decide) (by decide),
   claim_C7_amended.2.1 c7State ⟨3, Suit.spades, Rank.rK⟩ ⟨0, Suit.clubs, Rank.r8⟩ []
     (by decide) (by decide) (by decide),
   (claim_C7_amended.2.2 (suitCountExcl c7State.aiHand 0)).1⟩

end Q8
